import Mathlib

/-!
# Verification of the Skillora resume-scoring core

Shallow embedding of the scoring engine of the Skillora repository:
the skill extractor and match scorer (`ml_service/analyzer.py`), the
language-detection wrapper (`ml_service/language_detector.py`) and the
ATS compatibility scorer (`ml_service/ats_scorer.py`).

Texts are modelled as `List Char` (Python `str`), real-valued scores as `ℚ`.
The regular-expression idioms used by the code (all of them literal
patterns, optionally wrapped in word boundaries, character classes, or
fixed date/metric shapes) are compiled by hand into executable scanners
over `List Char`, mirroring Python `re` semantics for ASCII input:
a word character is `[a-zA-Z0-9_]`, whitespace is the usual six ASCII
whitespace characters, `re.search` succeeds iff some starting position
admits a match.
-/

/-- Word character as in the regex `\w` / word boundary `\b`: letters,
digits, underscore (ASCII model of the Python semantics). -/
def isWordChar (c : Char) : Bool := c.isAlphanum || c == '_'

/-- Python `\s` / `str.split()` / `str.strip()` whitespace (ASCII model). -/
def isSpaceChar (c : Char) : Bool :=
  c == ' ' || c == '\t' || c == '\n' || c == '\r' || c == '\x0b' || c == '\x0c'

/-- Word-character status of the first character (`false` for the empty list,
matching the regex convention that out-of-range positions are non-word). -/
def headW : List Char → Bool
  | [] => false
  | c :: _ => isWordChar c

/-- Word-character status of the last character (`false` for the empty list). -/
def lastW (l : List Char) : Bool := headW l.reverse

/-- Literal-prefix test, `pat` against the front of the text. -/
def matchLit : List Char → List Char → Bool
  | [], _ => true
  | _ :: _, [] => false
  | a :: as, b :: bs => (a == b) && matchLit as bs

/-- Scanner for `re.search(r'\b' + re.escape(lit) + r'\b', t)` with a literal
`lit`: at each position, both word boundaries must hold and the literal must
match.  `pw` carries the word-character status of the previous character. -/
def searchAux (pat : List Char) : Bool → List Char → Bool
  | _, [] => false
  | pw, c :: rest =>
    ((pw != isWordChar c) && matchLit pat (c :: rest) &&
      (lastW pat != headW ((c :: rest).drop pat.length)))
    || searchAux pat (isWordChar c) rest

/-- `re.search(r'\b' + re.escape(pat) + r'\b', t) is not None` for a
non-empty literal `pat`. -/
def reSearchWord (pat t : List Char) : Bool := searchAux pat false t

/-- Python `str.lower()` (ASCII model). -/
def lowerL (l : List Char) : List Char := l.map Char.toLower

/-- One step of Python `str.title()`: a cased (alphabetic) character is
uppercased after a non-cased character and lowercased otherwise. -/
def pyTitleGo : Bool → List Char → List Char
  | _, [] => []
  | prevCased, c :: rest =>
    if c.isAlpha then
      (if prevCased then c.toLower else c.toUpper) :: pyTitleGo true rest
    else
      c :: pyTitleGo false rest

/-- Python `str.title()` (ASCII model). -/
def pyTitleL (l : List Char) : List Char := pyTitleGo false l

/-- Worker for Python `str.split()`: `cur` is the reversed current token. -/
def pySplitGo (cur : List Char) : List Char → List (List Char)
  | [] => if cur.isEmpty then [] else [cur.reverse]
  | c :: rest =>
    if isSpaceChar c then
      if cur.isEmpty then pySplitGo [] rest else cur.reverse :: pySplitGo [] rest
    else
      pySplitGo (c :: cur) rest

/-- Python `str.split()` with no separator: split on whitespace runs,
dropping empty tokens. -/
def pySplit (l : List Char) : List (List Char) := pySplitGo [] l

/-- Python `str.strip()`: drop leading and trailing whitespace. -/
def pyStrip (l : List Char) : List Char :=
  ((l.dropWhile isSpaceChar).reverse.dropWhile isSpaceChar).reverse

/-- Worker for Python `str.split('\n')` (keeps empty pieces). -/
def splitNlGo (cur : List Char) : List Char → List (List Char)
  | [] => [cur.reverse]
  | c :: rest =>
    if c == '\n' then cur.reverse :: splitNlGo [] rest
    else splitNlGo (c :: cur) rest

/-- Python `str.split('\n')`. -/
def splitNl (l : List Char) : List (List Char) := splitNlGo [] l

/-- `len(re.findall(re.escape(pat), t))` for a non-empty literal `pat`:
left-to-right, non-overlapping occurrences.  The fuel argument (one unit per
consumed character) only makes the recursion structural. -/
def countOccsAux (pat : List Char) : Nat → List Char → Nat
  | 0, _ => 0
  | _, [] => 0
  | fuel + 1, c :: rest =>
    if matchLit pat (c :: rest) then
      1 + countOccsAux pat fuel ((c :: rest).drop pat.length)
    else
      countOccsAux pat fuel rest

/-- `len(re.findall(re.escape(pat), t))`; for the empty pattern Python
returns one empty match per position. -/
def countOccs (pat t : List Char) : Nat :=
  if pat.isEmpty then t.length + 1 else countOccsAux pat t.length t

/-- Plain substring test (Python `pat in t`). -/
def containsSub (pat : List Char) : List Char → Bool
  | [] => pat.isEmpty
  | c :: rest => matchLit pat (c :: rest) || containsSub pat rest

/-- `TECH_SKILLS_EN` from `ml_service/skills/skills_en.py`, in source order
(223 distinct entries; the Python set literal has no duplicates). -/
def TECH_SKILLS_EN : List String := [
  "python", "javascript", "typescript", "java", "c++", "c#",
  "c", "ruby", "go", "golang", "rust", "php",
  "swift", "kotlin", "scala", "perl", "r", "matlab",
  "lua", "dart", "objective-c", "shell", "bash", "powershell",
  "react", "reactjs", "react.js", "angular", "angularjs", "vue",
  "vuejs", "vue.js", "svelte", "next.js", "nextjs", "nuxt",
  "gatsby", "html", "html5", "css", "css3", "sass",
  "scss", "less", "tailwind", "tailwindcss", "bootstrap", "material-ui",
  "mui", "chakra", "styled-components", "webpack", "vite", "babel",
  "jquery", "node.js", "nodejs", "node", "express", "expressjs",
  "fastapi", "django", "flask", "spring", "spring boot", "springboot",
  "nestjs", "rails", "ruby on rails", "laravel", "asp.net", ".net",
  "dotnet", "gin", "fiber", "fastify", "koa", "sql",
  "postgresql", "postgres", "mysql", "mariadb", "mongodb", "mongo",
  "redis", "elasticsearch", "elastic", "dynamodb", "sqlite", "oracle",
  "cassandra", "couchdb", "neo4j", "graphql", "prisma", "sequelize",
  "typeorm", "mongoose", "aws", "amazon web services", "gcp", "google cloud",
  "azure", "microsoft azure", "docker", "kubernetes", "k8s", "terraform",
  "ansible", "puppet", "chef", "ci/cd", "cicd", "jenkins",
  "github actions", "gitlab ci", "circleci", "travis", "heroku", "vercel",
  "netlify", "digitalocean", "linode", "cloudflare", "machine learning", "ml",
  "deep learning", "dl", "artificial intelligence", "ai", "tensorflow", "pytorch",
  "keras", "pandas", "numpy", "scikit-learn", "sklearn", "opencv",
  "nlp", "natural language processing", "computer vision", "data science", "data analysis", "data engineering",
  "spark", "hadoop", "airflow", "kafka", "databricks", "git",
  "github", "gitlab", "bitbucket", "jira", "confluence", "agile",
  "scrum", "kanban", "rest", "rest api", "restful", "api",
  "apis", "microservices", "monorepo", "tdd", "testing", "unit testing",
  "jest", "mocha", "pytest", "selenium", "cypress", "playwright",
  "ios", "android", "react native", "flutter", "xamarin", "ionic",
  "mobile", "app development", "leadership", "communication", "teamwork", "problem solving",
  "critical thinking", "project management", "team lead", "tech lead", "software architect", "senior developer",
  "full stack developer", "backend developer", "frontend developer", "linux", "unix", "windows",
  "macos", "devops", "sre", "backend", "frontend", "full stack",
  "fullstack", "software engineer", "developer", "programming", "coding", "api design",
  "system design", "architecture", "security", "cybersecurity", "networking", "tcp/ip",
  "http", "https", "websocket", "oauth", "jwt", "authentication",
  "authorization"]

/-- `UNIVERSAL_SKILLS` from `ml_service/skills/__init__.py`. -/
def UNIVERSAL_SKILLS : List String := [
  "python", "javascript", "typescript", "java", "c++", "c#",
  "c", "ruby", "go", "rust", "php", "swift",
  "kotlin", "scala", "react", "angular", "vue", "django",
  "flask", "fastapi", "spring", "node.js", "express", "docker",
  "kubernetes", "git", "github", "aws", "azure", "gcp",
  "postgresql", "mysql", "mongodb", "redis", "elasticsearch"]

/-- Modelled from the spec: the Skill Dictionary Provider
(`get_skills_for_language` in `ml_service/skills/__init__.py`) returns the
language table entry unioned with the universal set; for language code `en`
this is `TECH_SKILLS_EN ∪ UNIVERSAL_SKILLS`.  The package also imports
`skills_ar.py`, a module that is not among the source files; the spec (§4.1)
treats the provider as always operational, so it is modelled as such here.
Set union is realised as an order-preserving deduplicating append; in fact
`UNIVERSAL_SKILLS ⊆ TECH_SKILLS_EN`, so the union equals `TECH_SKILLS_EN`. -/
def skillsForEnglish : List String :=
  TECH_SKILLS_EN ++ UNIVERSAL_SKILLS.filter (fun s => ¬ TECH_SKILLS_EN.contains s)

/-- The skill dictionary used throughout (language code `en`), as character
lists. -/
def skillsDict : List (List Char) := skillsForEnglish.map String.data

/-- The stop-word set `common_words` of
`ResumeAnalyzer.calculate_semantic_similarity`. -/
def common_words : List (List Char) := List.map String.data [
  "the", "a", "an", "is", "are", "and", "or", "to", "for", "with",
  "in", "on", "of", "we", "you", "will", "be", "as", "at", "by",
  "have", "has", "this", "that", "our", "your"]

/-! ## Skill extraction and the match scorer (`ml_service/analyzer.py`) -/

/-- `re.search(r'\b' + re.escape(skill) + r'\b', text_lower)` for one
dictionary entry, as used by `ResumeAnalyzer.extract_skills`. -/
def skillMatches (t : List Char) (s : List Char) : Bool :=
  reSearchWord s (lowerL t)

/-- The dictionary entries found in `t` (lower-cased entries, in dictionary
order).  `extract_skills` title-cases them for display; counting and set
operations are unaffected because `str.title` is injective on the (all
lower-case) dictionary. -/
def foundSkills (t : List Char) : List (List Char) :=
  skillsDict.filter (skillMatches t)

/-- `ResumeAnalyzer.extract_skills(text)` (language code `en`): the found
dictionary entries, title-cased and deduplicated.  The Python code returns
`list(set(...))` in unspecified order; the dictionary order is used here.  -/
def extract_skills (t : List Char) : List (List Char) :=
  (foundSkills t).map pyTitleL

/-- The entries counted by `matched_skills = resume_skills ∩ jd_skills`. -/
def matchedSkills (r j : List Char) : List (List Char) :=
  (foundSkills r).filter (skillMatches j)

/-- `match_ratio`: `len(matched)/len(jd_skills)` when the job description has
skills, `0` otherwise (`calculate_semantic_similarity`, lines 196-217). -/
def match_ratio (r j : List Char) : ℚ :=
  if (foundSkills j).length ≠ 0 then
    ((matchedSkills r j).length : ℚ) / ((foundSkills j).length : ℚ)
  else 0

/-- The optional embedding collaborator: `None` models an unloaded
sentence-transformer model (`self.model is None`); an `Except.error` result
models an exception raised by the encode/cosine call. -/
abbrev EmbModel := List Char → List Char → Except String ℚ

/-- `skill_score` of `calculate_semantic_similarity`: `20 + match_ratio*70`
when the JD has skills; otherwise the embedding fallback `30 + similarity*60`,
degrading to the fixed `50.0` when the model is absent or raises. -/
def skill_score (r j : List Char) (emb : Option EmbModel) : ℚ :=
  if (foundSkills j).length ≠ 0 then
    20 + match_ratio r j * 70
  else
    match emb with
    | some f =>
      match f (r.take 2000) (j.take 2000) with
      | Except.ok sim => 30 + sim * 60
      | Except.error _ => 50
    | none => 50

/-- `resume_words` (resp. `jd_words`): lower-cased whitespace tokens minus
the stop-word set `common_words`. -/
def contentWords (t : List Char) : List (List Char) :=
  (pySplit (lowerL t)).filter (fun w => ¬ common_words.contains w)

/-- The distinct JD content words (Python builds a `set`). -/
def jdWordSet (j : List Char) : List (List Char) := (contentWords j).dedup

/-- `len(resume_words ∩ jd_words)`. -/
def wordOverlapCount (r j : List Char) : Nat :=
  (jdWordSet j).countP (fun w => (contentWords r).contains w)

/-- `word_bonus` (lines 219-230): `min(overlap*20, 15)` when the JD has
content words, else `5`. -/
def word_bonus (r j : List Char) : ℚ :=
  if (jdWordSet j).length ≠ 0 then
    min ((wordOverlapCount r j : ℚ) / ((jdWordSet j).length : ℚ) * 20) 15
  else 5

/-- The perfect / near-perfect match bonus (lines 234-238). -/
def ratioBonus (r j : List Char) : ℚ :=
  if match_ratio r j ≥ 1 then 5
  else if match_ratio r j ≥ 4/5 then 3
  else 0

/-- The many-relevant-skills bonus (lines 240-244). -/
def skillCountBonus (r : List Char) : ℚ :=
  if (foundSkills r).length ≥ 8 then 3
  else if (foundSkills r).length ≥ 5 then 2
  else 0

/-- `ResumeAnalyzer.calculate_semantic_similarity(resume, jd)` (language
code `en`): the match score, clamped to `[0, 100]`. -/
def calculate_semantic_similarity (r j : List Char) (emb : Option EmbModel) : ℚ :=
  max 0 (min 100 (skill_score r j emb + word_bonus r j + ratioBonus r j + skillCountBonus r))

/-- `skills_found` of `ResumeAnalyzer.analyze_text`: the first 10 extracted
resume skills. -/
def skillsFoundList (r : List Char) : List (List Char) :=
  (extract_skills r).take 10

/-- `ResumeAnalyzer.find_missing_keywords`: JD skills minus resume skills,
title-cased (again). -/
def find_missing_keywords (r j : List Char) : List (List Char) :=
  ((extract_skills j).filter (fun s => ¬ (extract_skills r).contains s)).map pyTitleL

/-- `missing_keywords` of `ResumeAnalyzer.analyze_text`: the first 8 missing
keywords. -/
def missingKeywordsList (r j : List Char) : List (List Char) :=
  (find_missing_keywords r j).take 8

/-! ## Language detection (`ml_service/language_detector.py`) -/

/-- `SUPPORTED_LANGUAGES` as an association list, code to display name. -/
def SUPPORTED_LANGUAGES : List (String × String) :=
  [("en", "English"), ("es", "Spanish"), ("fr", "French"), ("de", "German"),
   ("zh-cn", "Chinese (Simplified)"), ("zh-tw", "Chinese (Traditional)"),
   ("ar", "Arabic"), ("hi", "Hindi"), ("pt", "Portuguese"), ("ru", "Russian"),
   ("ja", "Japanese"), ("ko", "Korean"), ("it", "Italian"), ("nl", "Dutch"),
   ("pl", "Polish"), ("tr", "Turkish"), ("vi", "Vietnamese"), ("th", "Thai"),
   ("id", "Indonesian"), ("sv", "Swedish")]

/-- The `langdetect.detect_langs` collaborator: a ranked list of
(language code, probability) pairs, or an exception. -/
abbrev DetectCollab := String → Except Unit (List (String × ℚ))

/-- `detect_language(text)`: `('en', 0.0, 'English')` for empty text, text
whose stripped length is below 20, an empty probability list, or a raised
exception; otherwise the top language, with Chinese code normalisation and a
display-name lookup falling back to the upper-cased code. -/
def detect_language (collab : DetectCollab) (text : String) : String × ℚ × String :=
  if text = "" ∨ (pyStrip text.data).length < 20 then ("en", 0, "English")
  else
    match collab text with
    | Except.error _ => ("en", 0, "English")
    | Except.ok [] => ("en", 0, "English")
    | Except.ok (top :: _) =>
      let code := if top.1 = "zh-cn" ∨ top.1 = "zh" then "zh-cn"
                  else if top.1 = "zh-tw" then "zh-tw" else top.1
      let name := match (SUPPORTED_LANGUAGES.lookup code) with
                  | some n => n
                  | none => code.toUpper
      (code, top.2, name)

/-- `ResumeAnalyzer.detect_resume_language` when the language-detection
module is unavailable (`LANGUAGE_DETECTION_AVAILABLE = False`, analyzer.py
lines 100-106): language code, confidence, name, `is_rtl`. -/
def detect_resume_language_unavailable : String × ℚ × String × Bool :=
  ("en", 1, "English", false)

/-! ## ATS compatibility scorer (`ml_service/ats_scorer.py`)

Only the numeric category scores and the final aggregation are embedded;
the `ATSCheckResult` diagnostic records (names, messages, severities, tips)
do not influence any score and are omitted. -/

/-- `ACTION_VERBS` from `ats_scorer.py` (52 distinct entries). -/
def ACTION_VERBS : List String := [
  "achieved", "administered", "analyzed", "built", "collaborated", "conducted", "coordinated",
  "created", "delivered", "designed", "developed", "directed", "drove", "engineered",
  "established", "executed", "expanded", "facilitated", "generated", "grew", "identified",
  "implemented", "improved", "increased", "initiated", "integrated", "launched", "led",
  "managed", "mentored", "monitored", "negotiated", "optimized", "orchestrated", "organized",
  "oversaw", "pioneered", "planned", "produced", "reduced", "redesigned", "refactored",
  "resolved", "revamped", "scaled", "shipped", "spearheaded", "streamlined", "supervised",
  "transformed", "upgraded", "utilized"]

/-- The five `ATS_PROBLEMATIC_PATTERNS` character classes. -/
def PROBLEMATIC_CLASSES : List (List Char) :=
  List.map String.data
    ["│|┃┆┇┊┋", "★☆●◆◇▪▫►▸•", "─━═┄┅┈┉", "​‌‍﻿", "©®™"]

/-- `STANDARD_SECTIONS["experience"]`. -/
def SECTION_EXPERIENCE : List String := [
  "experience", "work experience", "professional experience", "employment history",
  "work history", "career history", "relevant experience", "professional background"]

/-- `STANDARD_SECTIONS["education"]`. -/
def SECTION_EDUCATION : List String := [
  "education", "academic background", "academic qualifications", "educational background",
  "qualifications", "degrees"]

/-- `STANDARD_SECTIONS["skills"]`. -/
def SECTION_SKILLS : List String := [
  "skills", "technical skills", "core competencies", "key skills",
  "competencies", "areas of expertise", "proficiencies", "technologies"]

/-- `STANDARD_SECTIONS["summary"]`. -/
def SECTION_SUMMARY : List String := [
  "summary", "professional summary", "career summary", "profile",
  "professional profile", "about me", "objective", "career objective"]

/-- `STANDARD_SECTIONS["certifications"]`. -/
def SECTION_CERTIFICATIONS : List String := [
  "certifications", "certificates", "licenses", "professional certifications",
  "credentials"]

/-- `STANDARD_SECTIONS["projects"]`. -/
def SECTION_PROJECTS : List String := [
  "projects", "key projects", "personal projects", "notable projects",
  "portfolio"]

/-- Number of problematic character classes present in the text. -/
def problematicCount (t : List Char) : Nat :=
  (PROBLEMATIC_CLASSES.filter (fun cls => t.any (fun c => cls.contains c))).length

/-- `len(re.findall(r'\n{4,}', text))`: the number of maximal runs of at
least four consecutive newlines (`run` is the length of the current run). -/
def nlRuns : Nat → List Char → Nat
  | run, [] => if run ≥ 4 then 1 else 0
  | run, c :: rest =>
    if c == '\n' then nlRuns (run + 1) rest
    else (if run ≥ 4 then 1 else 0) + nlRuns 0 rest

/-- The duplicated header/footer test of `_score_formatting` (lines 268-280). -/
def headerFooterRepeat (t : List Char) : Bool :=
  let ls := splitNl (pyStrip t)
  if ls.length > 5 then
    match ls with
    | [] => false
    | f :: _ =>
      let fl := lowerL (pyStrip f)
      (ls.drop (ls.length - 3)).any (fun l => lowerL (pyStrip l) == fl) && fl.length > 5
  else false

/-- The word-count penalty bands of `_score_formatting`. -/
def lengthPenalty (wc : Nat) : ℚ :=
  if wc < 100 then 25 else if wc < 250 then 10 else if wc > 1500 then 5 else 0

/-- `ATSScorer._score_formatting` category score: start at 100, subtract the
capped special-character deduction, the blank-line, length and
header/footer penalties; floor at 0. -/
def score_formatting (t : List Char) : ℚ :=
  max 0 (100 - min ((problematicCount t : ℚ) * 10) 30
           - (if nlRuns 0 t > 2 then 10 else 0)
           - lengthPenalty (pySplit t).length
           - (if headerFooterRepeat t then 5 else 0))

/-- Tail of the section-header pattern: `\s*[:\n]` (a colon or newline,
possibly after further whitespace; a newline is itself whitespace, so it is
accepted as soon as it is seen). -/
def afterHdrOk : List Char → Bool
  | [] => false
  | c :: rest =>
    if c == ':' || c == '\n' then true
    else if isSpaceChar c then afterHdrOk rest
    else false

/-- Header match at one anchor position: `\s*` then the literal header then
`\s*[:\n]`. -/
def hdrAt (hdr t : List Char) : Bool :=
  let t2 := t.dropWhile isSpaceChar
  matchLit hdr t2 && afterHdrOk (t2.drop hdr.length)

/-- Scan for anchors after a newline. -/
def hdrScan (hdr : List Char) : List Char → Bool
  | [] => false
  | c :: rest => (c == '\n' && hdrAt hdr rest) || hdrScan hdr rest

/-- `re.search(r'(?:^|\n)\s*' + re.escape(header) + r'\s*[:\n]', text_lower)`
for some header synonym of the section. -/
def sectionFound (tl : List Char) (headers : List String) : Bool :=
  headers.any (fun h => hdrAt h.data tl || hdrScan h.data tl)

/-- Number of required sections (experience, education, skills) found. -/
def requiredSectionsFound (tl : List Char) : Nat :=
  ([SECTION_EXPERIENCE, SECTION_EDUCATION, SECTION_SKILLS].filter
    (sectionFound tl)).length

/-- Number of bonus sections (summary, certifications, projects) found. -/
def bonusSectionsFound (tl : List Char) : Nat :=
  ([SECTION_SUMMARY, SECTION_CERTIFICATIONS, SECTION_PROJECTS].filter
    (sectionFound tl)).length

/-- `ATSScorer._score_sections` category score. -/
def score_sections (t : List Char) : ℚ :=
  let tl := lowerL t
  let req := requiredSectionsFound tl
  let base : ℚ := if req = 3 then 80 else max 20 ((req : ℚ) / 3 * 80)
  min 100 (max 0 (base + (bonusSectionsFound tl : ℚ) * (20 / 3)))

/-- `header in text_lower` test of `_score_keywords` (plain substring). -/
def skillsSectionMentioned (tl : List Char) : Bool :=
  SECTION_SKILLS.any (fun h => containsSub h.data tl)

/-- The keyword-stuffing test: one of the first five found skills occurs more
than eight times in the lower-cased resume. -/
def stuffingFlag (tl : List Char) (sf : List (List Char)) : Bool :=
  (sf.take 5).any (fun sk => countOccs (lowerL sk) tl > 8)

/-- `ATSScorer._score_keywords` category score (the `jd` argument is unused
by the source as well). -/
def score_keywords (t _jd : List Char) (sf mk : List (List Char)) : ℚ :=
  if sf.length + mk.length = 0 then 50
  else
    let rate : ℚ := (sf.length : ℚ) / ((sf.length + mk.length : Nat) : ℚ)
    let tl := lowerL t
    let s1 := if skillsSectionMentioned tl then min 100 (rate * 100 + 5)
              else max 0 (rate * 100 - 5)
    let s2 := if stuffingFlag tl sf then s1 - 10 else s1
    max 0 (min 100 s2)

/-- The email local-part class `[\w.+-]`. -/
def emailClassA (c : Char) : Bool := isWordChar c || c == '.' || c == '+' || c == '-'

/-- The email domain class `[\w-]`. -/
def emailClassB (c : Char) : Bool := isWordChar c || c == '-'

/-- The email TLD class `[\w.]`. -/
def emailClassC (c : Char) : Bool := isWordChar c || c == '.'

/-- After an `@`: a non-empty `[\w-]` run, a dot, then at least one `[\w.]`
character (`[\w-]` excludes the dot, so the run is forced to be maximal). -/
def emailAfterAt (l : List Char) : Bool :=
  let run := (l.takeWhile emailClassB).length
  run ≠ 0 &&
    (match l.drop run with
     | '.' :: d :: _ => emailClassC d
     | _ => false)

/-- `re.search(r'[\w.+-]+@[\w-]+\.[\w.]+', text)`: scan for an `@` preceded
by a local-part character and followed by a domain. -/
def emailSearch : Option Char → List Char → Bool
  | _, [] => false
  | prev, c :: rest =>
    (c == '@' &&
      (match prev with | some p => emailClassA p | none => false) &&
      emailAfterAt rest)
    || emailSearch (some c) rest

/-- Email presence in the resume text. -/
def emailFound (t : List Char) : Bool := emailSearch none t

/-- The phone character class `[\d\s\-\(\)]`. -/
def phoneClass (c : Char) : Bool :=
  c.isDigit || isSpaceChar c || c == '-' || c == '(' || c == ')'

/-- A run of at least 7 phone-class characters exists (`run` counts the
current one); the optional leading `[\+]?` cannot affect existence. -/
def phoneRun : Nat → List Char → Bool
  | run, [] => run ≥ 7
  | run, c :: rest =>
    if phoneClass c then decide (run + 1 ≥ 7) || phoneRun (run + 1) rest
    else phoneRun 0 rest

/-- `re.search(r'[\+]?[\d\s\-\(\)]{7,15}', text[:500])`. -/
def phoneFound (t : List Char) : Bool := phoneRun 0 (t.take 500)

/-- `linkedin.com/in/` followed by at least one `[\w-]` character, at this
position. -/
def linkedinAt (l : List Char) : Bool :=
  matchLit "linkedin.com/in/".data l &&
    (match l.drop 16 with
     | c :: _ => emailClassB c
     | [] => false)

/-- `re.search(r'linkedin\.com/in/[\w-]+', text, re.IGNORECASE)`, realised on
the lower-cased text. -/
def linkedinScan : List Char → Bool
  | [] => false
  | c :: rest => linkedinAt (c :: rest) || linkedinScan rest

/-- LinkedIn URL presence. -/
def linkedinFound (t : List Char) : Bool := linkedinScan (lowerL t)

/-- `[l.strip() for l in text.strip().split('\n') if l.strip()]`. -/
def contactLines (t : List Char) : List (List Char) :=
  ((splitNl (pyStrip t)).map pyStrip).filter (fun l => ¬ l.isEmpty)

/-- The plausible-name heuristic: first non-empty line has 2 to 5 whitespace
tokens and no `@` or digit. -/
def nameOk (t : List Char) : Bool :=
  match contactLines t with
  | [] => false
  | first :: _ =>
    2 ≤ (pySplit first).length && (pySplit first).length ≤ 5 &&
      ¬ first.any (fun c => c == '@' || c.isDigit)

/-- `ATSScorer._score_contact` category score: email +30, phone +25,
LinkedIn +20, name +25, clamped. -/
def score_contact (t : List Char) : ℚ :=
  min 100 (max 0 ((if emailFound t then 30 else 0)
    + (if phoneFound t then 25 else 0)
    + (if linkedinFound t then 20 else 0)
    + (if nameOk t then 25 else 0)))

/-- Distinct action verbs present (word-boundary search on the lower-cased
text, as in `_score_content`). -/
def actionVerbCount (tl : List Char) : Nat :=
  (ACTION_VERBS.filter (fun v => reSearchWord v.data tl)).length

/-- The counted-noun alternation of `METRICS_PATTERN`, in source order. -/
def metricsNouns : List String :=
  ["users", "clients", "customers", "projects", "team", "members", "engineers",
   "developers", "people", "employees", "reports", "applications", "servers",
   "endpoints", "requests", "transactions", "records"]

/-- Length of the leading digit run. -/
def digitRun (l : List Char) : Nat := (l.takeWhile Char.isDigit).length

/-- The optional metric suffix class `[%+xX]`. -/
def isMetricSuffix (c : Char) : Bool := c == '%' || c == '+' || c == 'x' || c == 'X'

/-- First `METRICS_PATTERN` alternative `\b\d+[%+xX]?\b` at this position
(`pw` = word status of the previous character); returns the match length.
The greedy optional suffix is tried first, backtracking to the bare digit
run if its trailing boundary fails. -/
def tryMetricAlt1 (pw : Bool) (l : List Char) : Option Nat :=
  match l with
  | [] => none
  | c :: _ =>
    if ¬ c.isDigit || pw then none
    else
      let d := digitRun l
      match l.drop d with
      | c2 :: rest2 =>
        if isMetricSuffix c2 && (isWordChar c2 != headW rest2) then some (d + 1)
        else if ¬ isWordChar c2 then some d
        else none
      | [] => some d

/-- Second alternative `\$\d+`. -/
def tryMetricAlt2 (l : List Char) : Option Nat :=
  match l with
  | '$' :: rest => if digitRun rest ≠ 0 then some (1 + digitRun rest) else none
  | _ => none

/-- Third alternative `\d+\s*(?:users|...)` (no word boundaries). -/
def tryMetricAlt3 (l : List Char) : Option Nat :=
  let d := digitRun l
  if d = 0 then none
  else
    let rest1 := l.drop d
    let w := (rest1.takeWhile isSpaceChar).length
    match metricsNouns.find? (fun n => matchLit n.data (rest1.drop w)) with
    | some n => some (d + w + n.length)
    | none => none

/-- One `METRICS_PATTERN` match attempt, alternatives in source order. -/
def tryMetric (pw : Bool) (l : List Char) : Option Nat :=
  (tryMetricAlt1 pw l).orElse fun _ =>
    (tryMetricAlt2 l).orElse fun _ => tryMetricAlt3 l

/-- `len(re.findall(pattern, t))` for a matcher `att` that returns the length
of the (always non-empty) match at a position: left-to-right, non-overlapping,
resuming after each match.  `pw` tracks the previous character for `\b`;
the fuel (one unit per consumed character) makes the recursion structural. -/
def findallGo (att : Bool → List Char → Option Nat) : Nat → Bool → List Char → Nat
  | 0, _, _ => 0
  | _, _, [] => 0
  | fuel + 1, pw, l =>
    match att pw l with
    | some n => 1 + findallGo att fuel (lastW (l.take n)) (l.drop n)
    | none =>
      match l with
      | [] => 0
      | c :: rest => findallGo att fuel (isWordChar c) rest

/-- `len(re.findall(METRICS_PATTERN, text))` (on the original-case text). -/
def metricsCount (t : List Char) : Nat := findallGo tryMetric t.length false t

/-- The month abbreviations of the date patterns. -/
def monthAbbrevs : List String :=
  ["Jan", "Feb", "Mar", "Apr", "May", "Jun", "Jul", "Aug", "Sep", "Oct", "Nov", "Dec"]

/-- `(?:Jan|..|Dec)[a-z]*\.?`: month abbreviation, trailing lower-case
letters, optional dot; returns the consumed length. -/
def tryMonthPart (l : List Char) : Option Nat :=
  match monthAbbrevs.find? (fun m => matchLit m.data l) with
  | none => none
  | some m =>
    let letters := ((l.drop m.length).takeWhile (fun c => 'a' ≤ c && c ≤ 'z')).length
    match l.drop (m.length + letters) with
    | '.' :: _ => some (m.length + letters + 1)
    | _ => some (m.length + letters)

/-- `\d{4}\b`: exactly four digits followed by a non-word position. -/
def yearThenBoundary (l : List Char) : Option Nat :=
  if digitRun l = 4 && ¬ headW (l.drop 4) then some 4 else none

/-- `[-–—]` dash class. -/
def isDashChar (c : Char) : Bool := c == '-' || c == '–' || c == '—'

/-- `[Pp]resent\b` or `[Cc]urrent\b`. -/
def tryPresCur (l : List Char) : Option Nat :=
  if (matchLit "Present".data l || matchLit "present".data l) && ¬ headW (l.drop 7) then some 7
  else if (matchLit "Current".data l || matchLit "current".data l) && ¬ headW (l.drop 7) then some 7
  else none

/-- `(?:\d{4}|[Pp]resent|[Cc]urrent)\b`. -/
def tryEndAlt (l : List Char) : Option Nat :=
  match yearThenBoundary l with
  | some y => some y
  | none => tryPresCur l

/-- Date pattern 1: `\b(?:Jan|...)[a-z]*\.?\s+\d{4}\b`. -/
def tryDate1 (pw : Bool) (l : List Char) : Option Nat :=
  if pw then none
  else
    match tryMonthPart l with
    | none => none
    | some m =>
      let w := ((l.drop m).takeWhile isSpaceChar).length
      if w = 0 then none
      else
        match yearThenBoundary (l.drop (m + w)) with
        | some y => some (m + w + y)
        | none => none

/-- Date pattern 2: `\b\d{1,2}/\d{4}\b`. -/
def tryDate2 (pw : Bool) (l : List Char) : Option Nat :=
  if pw then none
  else
    let d := digitRun l
    if d = 0 || d > 2 then none
    else
      match l.drop d with
      | '/' :: rest =>
        match yearThenBoundary rest with
        | some y => some (d + 1 + y)
        | none => none
      | _ => none

/-- Date pattern 3: `\b\d{4}\s*[-–—]\s*(?:\d{4}|[Pp]resent|[Cc]urrent)\b`. -/
def tryDate3 (pw : Bool) (l : List Char) : Option Nat :=
  if pw then none
  else if digitRun l ≠ 4 then none
  else
    let w1 := ((l.drop 4).takeWhile isSpaceChar).length
    match l.drop (4 + w1) with
    | dash :: rest2 =>
      if isDashChar dash then
        let w2 := (rest2.takeWhile isSpaceChar).length
        match tryEndAlt (rest2.drop w2) with
        | some e => some (4 + w1 + 1 + w2 + e)
        | none => none
      else none
    | [] => none

/-- Date pattern 4: month-year range,
`\b(?:Jan|...)[a-z]*\.?\s+\d{4}\s*[-–—]\s*(?:(?:Jan|...)[a-z]*\.?\s+\d{4}|[Pp]resent|[Cc]urrent)\b`. -/
def tryDate4 (pw : Bool) (l : List Char) : Option Nat :=
  if pw then none
  else
    match tryMonthPart l with
    | none => none
    | some m =>
      let w := ((l.drop m).takeWhile isSpaceChar).length
      if w = 0 then none
      else if digitRun (l.drop (m + w)) ≠ 4 then none
      else
        let rest3 := l.drop (m + w + 4)
        let w1 := (rest3.takeWhile isSpaceChar).length
        match rest3.drop w1 with
        | dash :: rest4 =>
          if isDashChar dash then
            let w2 := (rest4.takeWhile isSpaceChar).length
            let rest5 := rest4.drop w2
            match
              (match tryMonthPart rest5 with
               | none => none
               | some m2 =>
                 let w3 := ((rest5.drop m2).takeWhile isSpaceChar).length
                 if w3 = 0 then none
                 else
                   match yearThenBoundary (rest5.drop (m2 + w3)) with
                   | some y => some (m2 + w3 + y)
                   | none => none) with
            | some e => some (m + w + 4 + w1 + 1 + w2 + e)
            | none =>
              match tryPresCur rest5 with
              | some e => some (m + w + 4 + w1 + 1 + w2 + e)
              | none => none
          else none
        | [] => none

/-- Total `re.findall` count over the four `DATE_PATTERNS` (the source
extends one list with the matches of each pattern). -/
def dateCount (t : List Char) : Nat :=
  findallGo tryDate1 t.length false t + findallGo tryDate2 t.length false t
    + findallGo tryDate3 t.length false t + findallGo tryDate4 t.length false t

/-- `ATSScorer._score_content` category score: action verbs (+35/+25/+10),
metrics (+35/+20/+5), dates (+30/+15/+0), clamped. -/
def score_content (t : List Char) : ℚ :=
  let verbs := actionVerbCount (lowerL t)
  let metrics := metricsCount t
  let dates := dateCount t
  min 100 (max 0 ((if verbs ≥ 8 then (35 : ℚ) else if verbs ≥ 4 then 25 else 10)
    + (if metrics ≥ 5 then 35 else if metrics ≥ 2 then 20 else 5)
    + (if dates ≥ 2 then 30 else if dates = 1 then 15 else 0)))

/-- The five `(category score, weight)` pairs built by `ATSScorer.score`. -/
def atsCategories (r j : List Char) (sf mk : List (List Char)) : List (ℚ × ℚ) :=
  [(score_formatting r, 0.25), (score_sections r, 0.20),
   (score_keywords r j sf mk, 0.25), (score_contact r, 0.10),
   (score_content r, 0.20)]

/-- Round-half-to-even at integer precision (Python `round`). -/
def roundHalfEven (q : ℚ) : ℤ :=
  if q - ⌊q⌋ < 1/2 then ⌊q⌋
  else if q - ⌊q⌋ > 1/2 then ⌊q⌋ + 1
  else if ⌊q⌋ % 2 = 0 then ⌊q⌋ else ⌊q⌋ + 1

/-- Python `round(q, 1)`. -/
def pyRound1 (q : ℚ) : ℚ := (roundHalfEven (q * 10) : ℚ) / 10

/-- `ATSScorer.score` overall score: weighted average of the five category
scores (weighted sum over total weight), clamped to `[0, 100]` and rounded
to one decimal. -/
def overall_score (r j : List Char) (sf mk : List (List Char)) : ℚ :=
  pyRound1 (min 100 (max 0
    (if ((atsCategories r j sf mk).map Prod.snd).sum ≠ 0 then
      ((atsCategories r j sf mk).map (fun c => c.1 * c.2)).sum /
        ((atsCategories r j sf mk).map Prod.snd).sum
    else 0)))

/-- Scenario A resume text (spec §8). -/
def scenarioAResume : List Char :=
  "Python developer with Django, Flask, REST APIs, PostgreSQL, Docker, AWS experience, 5 years.".data

/-- Scenario A job description (spec §8). -/
def scenarioAJob : List Char :=
  "Python backend developer with Django and REST API experience.".data

/-- A concrete digit-free resume whose phone check passes. -/
def phoneResume : List Char :=
  "John Smith\n((( ---- )))\nExperienced chef and writer.".data

/-- The Scenario-A-style job description used for the C3 counterexample. -/
def c3jd : List Char := "java python".data

/-! ## Properties of the word-boundary scanner -/

/-- Word status of the character preceding the position right after `pre`
(the last character of `pre`, or the handed-down status `pw` if `pre` is
empty). -/
def preW (pw : Bool) (pre : List Char) : Bool :=
  pre.foldl (fun _ c => isWordChar c) pw

theorem preW_cons (pw : Bool) (c : Char) (pre : List Char) :
    preW pw (c :: pre) = preW (isWordChar c) pre := rfl

theorem matchLit_iff (pat : List Char) :
    ∀ l : List Char, matchLit pat l = true ↔ ∃ suf, l = pat ++ suf := by
  induction pat with
  | nil =>
    intro l
    simp [matchLit]
  | cons a as ih =>
    intro l
    cases l with
    | nil =>
      simp [matchLit]
    | cons b bs =>
      simp only [matchLit, Bool.and_eq_true, beq_iff_eq, ih, List.cons_append,
        List.cons.injEq]
      constructor
      · rintro ⟨rfl, suf, rfl⟩
        exact ⟨suf, rfl, rfl⟩
      · rintro ⟨suf, rfl, rfl⟩
        exact ⟨rfl, suf, rfl⟩

theorem searchAux_iff (pat : List Char) (hpat : pat ≠ []) :
    ∀ (t : List Char) (pw : Bool),
      searchAux pat pw t = true ↔
        ∃ pre suf, t = pre ++ pat ++ suf ∧
          (preW pw pre ≠ headW pat) ∧ (lastW pat ≠ headW suf) := by
  intro t pw
  induction t generalizing pw with
  | nil =>
    constructor
    · intro h
      exact absurd h (by simp [searchAux])
    · rintro ⟨pre, suf, habs, -, -⟩
      have habs' : (pre ++ pat) ++ suf = [] := habs.symm
      rcases List.append_eq_nil.mp habs' with ⟨h1, -⟩
      rcases List.append_eq_nil.mp h1 with ⟨-, h2⟩
      exact absurd h2 hpat
  | cons c rest ih =>
    have hstep : searchAux pat pw (c :: rest) =
        (((pw != isWordChar c) && matchLit pat (c :: rest) &&
          (lastW pat != headW ((c :: rest).drop pat.length)))
        || searchAux pat (isWordChar c) rest) := rfl
    rw [hstep]
    simp only [Bool.or_eq_true, Bool.and_eq_true, bne_iff_ne, matchLit_iff, ih]
    constructor
    · rintro (⟨⟨hbd, suf, hsuf⟩, hend⟩ | ⟨pre, suf, heq, hl, hr⟩)
      · refine ⟨[], suf, ?_, ?_, ?_⟩
        · simpa using hsuf
        · cases pat with
          | nil => exact absurd rfl hpat
          | cons p ps =>
            have hc : c = p := by
              simpa using congrArg (fun l => l.headD ' ') hsuf
            simpa [preW, headW, hc] using hbd
        · have hdrop : (c :: rest).drop pat.length = suf := by
            rw [hsuf]
            exact List.drop_left pat suf
          rw [hdrop] at hend
          exact hend
      · refine ⟨c :: pre, suf, ?_, ?_, ?_⟩
        · simp [heq]
        · rw [preW_cons]
          exact hl
        · exact hr
    · rintro ⟨pre, suf, heq, hl, hr⟩
      cases pre with
      | nil =>
        left
        have hsuf : c :: rest = pat ++ suf := by simpa using heq
        have hdrop : (c :: rest).drop pat.length = suf := by
          rw [hsuf]
          exact List.drop_left pat suf
        refine ⟨⟨?_, suf, hsuf⟩, ?_⟩
        · cases pat with
          | nil => exact absurd rfl hpat
          | cons p ps =>
            have hc : c = p := by
              simpa using congrArg (fun l => l.headD ' ') hsuf
            simpa [preW, headW, hc] using hl
        · rw [hdrop]
          exact hr
      | cons c' pre' =>
        right
        have hc : c' = c := by
          simpa using congrArg (fun l => l.headD ' ') heq.symm
        subst hc
        refine ⟨pre', suf, by simpa using heq, ?_, hr⟩
        rw [preW_cons] at hl
        exact hl

theorem reSearchWord_iff (pat : List Char) (hpat : pat ≠ []) (t : List Char) :
    reSearchWord pat t = true ↔
      ∃ pre suf, t = pre ++ pat ++ suf ∧
        (preW false pre ≠ headW pat) ∧ (lastW pat ≠ headW suf) :=
  searchAux_iff pat hpat t false

theorem headW_append_nonword (suf u : List Char) (c : Char)
    (hc : isWordChar c = false) : headW (suf ++ c :: u) = headW suf := by
  cases suf with
  | nil => simp [headW, hc]
  | cons d l => rfl

/-- Appending a non-word character plus arbitrary text never destroys a
word-boundary match. -/
theorem reSearchWord_append (pat t u : List Char) (c : Char) (hpat : pat ≠ [])
    (hc : isWordChar c = false) (h : reSearchWord pat t = true) :
    reSearchWord pat (t ++ c :: u) = true := by
  rcases (reSearchWord_iff pat hpat t).mp h with ⟨pre, suf, rfl, hl, hr⟩
  refine (reSearchWord_iff pat hpat _).mpr ⟨pre, suf ++ c :: u, by simp, hl, ?_⟩
  rwa [headW_append_nonword suf u c hc]

/-! ## Splitting, appending, and monotonicity support -/

theorem pySplitGo_append_sep (b : List Char) (c : Char) (hc : isSpaceChar c = true) :
    ∀ (a cur : List Char),
      pySplitGo cur (a ++ c :: b) = pySplitGo cur a ++ pySplitGo [] b := by
  intro a
  induction a with
  | nil =>
    intro cur
    show pySplitGo cur (c :: b) = pySplitGo cur [] ++ pySplitGo [] b
    simp only [pySplitGo, hc, if_true]
    by_cases hcur : cur.isEmpty
    · simp [hcur]
    · simp [hcur]
  | cons d a ih =>
    intro cur
    show pySplitGo cur (d :: (a ++ c :: b)) = pySplitGo cur (d :: a) ++ pySplitGo [] b
    simp only [pySplitGo]
    by_cases hd : isSpaceChar d
    · simp only [hd, if_true]
      by_cases hcur : cur.isEmpty
      · simp [hcur, ih]
      · simp [hcur, ih]
    · simp [hd, ih]

theorem pySplit_append_sep (a b : List Char) (c : Char) (hc : isSpaceChar c = true) :
    pySplit (a ++ c :: b) = pySplit a ++ pySplit b :=
  pySplitGo_append_sep b c hc a []

theorem lowerL_append_space (r s : List Char) :
    lowerL (r ++ ' ' :: s) = lowerL r ++ ' ' :: lowerL s := by
  simp [lowerL]

theorem contentWords_append_space (r s : List Char) :
    contentWords (r ++ ' ' :: s) = contentWords r ++ contentWords s := by
  unfold contentWords
  rw [lowerL_append_space, pySplit_append_sep _ _ ' ' rfl, List.filter_append]

set_option maxRecDepth 4000 in
/-- Every dictionary entry is a non-empty character list. -/
theorem skillsDict_entries_ne_nil : ∀ s ∈ skillsDict, s ≠ [] := by
  have h : skillsDict.all (fun s => !s.isEmpty) = true := by decide
  intro s hs
  have := List.all_eq_true.mp h s hs
  simpa [List.isEmpty_iff] using this

theorem skillMatches_append_space (r s sk : List Char) (hsk : sk ∈ skillsDict)
    (h : skillMatches r sk = true) : skillMatches (r ++ ' ' :: s) sk = true := by
  unfold skillMatches at h ⊢
  rw [lowerL_append_space]
  exact reSearchWord_append sk (lowerL r) (lowerL s) ' '
    (skillsDict_entries_ne_nil sk hsk) rfl h

theorem foundSkills_length_mono (r s : List Char) :
    (foundSkills r).length ≤ (foundSkills (r ++ ' ' :: s)).length := by
  unfold foundSkills
  rw [← List.countP_eq_length_filter, ← List.countP_eq_length_filter]
  exact List.countP_mono_left fun sk hsk h => skillMatches_append_space r s sk hsk h

theorem matchedSkills_length_eq (r j : List Char) :
    (matchedSkills r j).length =
      skillsDict.countP (fun sk => skillMatches j sk && skillMatches r sk) := by
  unfold matchedSkills foundSkills
  rw [← List.countP_eq_length_filter, List.countP_filter]

theorem matchedSkills_length_mono (r s j : List Char) :
    (matchedSkills r j).length ≤ (matchedSkills (r ++ ' ' :: s) j).length := by
  rw [matchedSkills_length_eq, matchedSkills_length_eq]
  refine List.countP_mono_left fun sk hsk h => ?_
  simp only [Bool.and_eq_true] at h ⊢
  exact ⟨h.1, skillMatches_append_space r s sk hsk h.2⟩

theorem wordOverlapCount_mono (r s j : List Char) :
    wordOverlapCount r j ≤ wordOverlapCount (r ++ ' ' :: s) j := by
  unfold wordOverlapCount
  refine List.countP_mono_left fun w hw h => ?_
  rw [contentWords_append_space]
  rcases List.mem_of_elem_eq_true h with hmem
  exact List.elem_eq_true_of_mem (List.mem_append_left _ hmem)

/-! ## Numeric range and monotonicity lemmas -/

theorem clamp_nonneg (x : ℚ) : 0 ≤ max 0 (min 100 x) := le_max_left 0 _

theorem clamp_le_100 (x : ℚ) : max 0 (min 100 x) ≤ 100 :=
  max_le (by norm_num) (min_le_left _ _)

theorem clamp_mono {a b : ℚ} (h : a ≤ b) :
    max 0 (min 100 a) ≤ max 0 (min 100 b) :=
  max_le_max le_rfl (min_le_min le_rfl h)

theorem clamp_of_le {a : ℚ} (h : 20 ≤ a) : 20 ≤ max 0 (min 100 a) :=
  le_trans (le_min (by norm_num) h) (le_max_right 0 _)

theorem match_ratio_nonneg (r j : List Char) : 0 ≤ match_ratio r j := by
  unfold match_ratio
  split_ifs
  · positivity
  · norm_num

theorem word_bonus_nonneg (r j : List Char) : 0 ≤ word_bonus r j := by
  unfold word_bonus
  split_ifs
  · exact le_min (by positivity) (by norm_num)
  · norm_num

theorem ratioBonus_nonneg (r j : List Char) : 0 ≤ ratioBonus r j := by
  unfold ratioBonus
  split_ifs <;> norm_num

theorem skillCountBonus_nonneg (r : List Char) : 0 ≤ skillCountBonus r := by
  unfold skillCountBonus
  split_ifs <;> norm_num

theorem match_ratio_mono (r s j : List Char) :
    match_ratio r j ≤ match_ratio (r ++ ' ' :: s) j := by
  unfold match_ratio
  by_cases hj : (foundSkills j).length ≠ 0
  · rw [if_pos hj, if_pos hj]
    have hd : (0 : ℚ) < ((foundSkills j).length : ℚ) := by
      exact_mod_cast Nat.pos_of_ne_zero hj
    have hm : ((matchedSkills r j).length : ℚ) ≤
        ((matchedSkills (r ++ ' ' :: s) j).length : ℚ) := by
      exact_mod_cast matchedSkills_length_mono r s j
    exact div_le_div_of_nonneg_right hm hd.le
  · rw [if_neg hj, if_neg hj]

theorem skill_score_mono (r s j : List Char) (emb : Option EmbModel)
    (hj : (foundSkills j).length ≠ 0) :
    skill_score r j emb ≤ skill_score (r ++ ' ' :: s) j emb := by
  unfold skill_score
  rw [if_pos hj, if_pos hj]
  have := match_ratio_mono r s j
  linarith

theorem word_bonus_mono (r s j : List Char) :
    word_bonus r j ≤ word_bonus (r ++ ' ' :: s) j := by
  unfold word_bonus
  by_cases hj : (jdWordSet j).length ≠ 0
  · rw [if_pos hj, if_pos hj]
    refine min_le_min ?_ le_rfl
    have hd : (0 : ℚ) < ((jdWordSet j).length : ℚ) := by
      exact_mod_cast Nat.pos_of_ne_zero hj
    have hm : ((wordOverlapCount r j : ℚ)) ≤ (wordOverlapCount (r ++ ' ' :: s) j : ℚ) := by
      exact_mod_cast wordOverlapCount_mono r s j
    have hdiv := div_le_div_of_nonneg_right hm hd.le
    linarith
  · rw [if_neg hj, if_neg hj]

theorem stepBonus53_mono {a b : ℚ} (h : a ≤ b) :
    (if a ≥ 1 then (5 : ℚ) else if a ≥ 4/5 then 3 else 0) ≤
      (if b ≥ 1 then (5 : ℚ) else if b ≥ 4/5 then 3 else 0) := by
  split_ifs <;> linarith

theorem ratioBonus_mono (r s j : List Char) :
    ratioBonus r j ≤ ratioBonus (r ++ ' ' :: s) j := by
  unfold ratioBonus
  exact stepBonus53_mono (match_ratio_mono r s j)

theorem stepBonus32_mono {m n : Nat} (h : m ≤ n) :
    (if m ≥ 8 then (3 : ℚ) else if m ≥ 5 then 2 else 0) ≤
      (if n ≥ 8 then (3 : ℚ) else if n ≥ 5 then 2 else 0) := by
  split_ifs <;> linarith

theorem skillCountBonus_mono (r s : List Char) :
    skillCountBonus r ≤ skillCountBonus (r ++ ' ' :: s) := by
  unfold skillCountBonus
  exact stepBonus32_mono (foundSkills_length_mono r s)

theorem roundHalfEven_nonneg {q : ℚ} (h : 0 ≤ q) : 0 ≤ roundHalfEven q := by
  unfold roundHalfEven
  have hf : (0 : ℤ) ≤ ⌊q⌋ := Int.floor_nonneg.mpr h
  split_ifs <;> omega

theorem roundHalfEven_le {q : ℚ} {n : ℤ} (h : q ≤ (n : ℚ)) :
    roundHalfEven q ≤ n := by
  have hfl : ⌊q⌋ ≤ n := by
    have := Int.floor_le_floor h
    simpa using this
  have hlow : (⌊q⌋ : ℚ) ≤ q := Int.floor_le q
  unfold roundHalfEven
  split_ifs with h1 h2 h3
  · exact hfl
  · have hlt : (⌊q⌋ : ℚ) < (n : ℚ) := by linarith
    have : ⌊q⌋ < n := by exact_mod_cast hlt
    omega
  · exact hfl
  · have heq : q - ⌊q⌋ = 1/2 := le_antisymm (not_lt.mp h2) (not_lt.mp h1)
    have hlt : (⌊q⌋ : ℚ) < (n : ℚ) := by linarith
    have : ⌊q⌋ < n := by exact_mod_cast hlt
    omega

theorem pyRound1_nonneg {q : ℚ} (h : 0 ≤ q) : 0 ≤ pyRound1 q := by
  unfold pyRound1
  have h1 : (0 : ℤ) ≤ roundHalfEven (q * 10) := roundHalfEven_nonneg (by positivity)
  have h2 : (0 : ℚ) ≤ (roundHalfEven (q * 10) : ℚ) := by exact_mod_cast h1
  positivity

theorem pyRound1_le_100 {q : ℚ} (h : q ≤ 100) : pyRound1 q ≤ 100 := by
  unfold pyRound1
  have h10 : q * 10 ≤ ((1000 : ℤ) : ℚ) := by push_cast; linarith
  have h1 := roundHalfEven_le h10
  have h2 : ((roundHalfEven (q * 10)) : ℚ) ≤ 1000 := by exact_mod_cast h1
  linarith

set_option maxRecDepth 4000 in
/-- `str.title()` is idempotent on every extracted skill label (checked over
the whole dictionary). -/
theorem pyTitle_idem_on_dict :
    skillsDict.all (fun s => pyTitleL (pyTitleL s) == pyTitleL s) = true := by decide

theorem clamp2_nonneg (x : ℚ) : 0 ≤ min 100 (max 0 x) :=
  le_min (by norm_num) (le_max_left 0 x)

theorem clamp2_le_100 (x : ℚ) : min 100 (max 0 x) ≤ 100 := min_le_left _ _

/-! ## Claim theorems -/

/-- C4: for every pair of resume and job texts (and any skills/missing lists
for the ATS scorer), the match score of the Match Scorer and the overall ATS
compatibility score both lie in the closed interval [0, 100]. -/
theorem c4_scores_in_range :
    (∀ (r j : List Char) (emb : Option EmbModel),
        0 ≤ calculate_semantic_similarity r j emb ∧
          calculate_semantic_similarity r j emb ≤ 100) ∧
      (∀ (r j : List Char) (sf mk : List (List Char)),
        0 ≤ overall_score r j sf mk ∧ overall_score r j sf mk ≤ 100) := by
  constructor
  · intro r j emb
    exact ⟨clamp_nonneg _, clamp_le_100 _⟩
  · intro r j sf mk
    unfold overall_score
    exact ⟨pyRound1_nonneg (clamp2_nonneg _), pyRound1_le_100 (clamp2_le_100 _)⟩

/-- C5: the five ATS category weights (0.25, 0.20, 0.25, 0.10, 0.20) sum to
exactly 1, so the overall ATS score is the plain weighted sum of the five
category scores (clamped and rounded); the division by the total weight is a
division by 1. -/
theorem c5_weights_sum_one (r j : List Char) (sf mk : List (List Char)) :
    ((atsCategories r j sf mk).map Prod.snd).sum = 1 ∧
      overall_score r j sf mk =
        pyRound1 (min 100 (max 0
          (((atsCategories r j sf mk).map (fun c => c.1 * c.2)).sum))) := by
  have hw : ((atsCategories r j sf mk).map Prod.snd).sum = 1 := by
    simp [atsCategories]
    norm_num
  refine ⟨hw, ?_⟩
  unfold overall_score
  rw [hw]
  norm_num

/-- C6: when the job description has no extracted skills and the embedding
collaborator is unavailable (`none`) or raises (`Except.error`), the Match
Scorer uses the fixed `skill_score = 50` with `match_ratio = 0`, and still
returns a well-formed score in [0, 100] (the embedded scorer is total: the
exception is consumed locally and never escapes). -/
theorem c6_embedding_fallback (r j : List Char) (emb : Option EmbModel)
    (hj : extract_skills j = [])
    (hemb : emb = none ∨
      ∃ f e, emb = some f ∧ f (r.take 2000) (j.take 2000) = Except.error e) :
    skill_score r j emb = 50 ∧ match_ratio r j = 0 ∧
      0 ≤ calculate_semantic_similarity r j emb ∧
      calculate_semantic_similarity r j emb ≤ 100 := by
  have hnil : foundSkills j = [] := by
    unfold extract_skills at hj
    exact List.map_eq_nil_iff.mp hj
  have hj0 : ¬ ((foundSkills j).length ≠ 0) := by simp [hnil]
  refine ⟨?_, ?_, clamp_nonneg _, clamp_le_100 _⟩
  · unfold skill_score
    rw [if_neg hj0]
    rcases hemb with rfl | ⟨f, e, rfl, herr⟩
    · rfl
    · dsimp only
      rw [herr]
  · unfold match_ratio
    rw [if_neg hj0]

theorem c6_embedding_fallback_witness :
    extract_skills ([] : List Char) = [] ∧
      (skill_score [] [] none = 50 ∧ match_ratio [] [] = 0 ∧
        0 ≤ calculate_semantic_similarity [] [] none ∧
        calculate_semantic_similarity [] [] none ≤ 100) :=
  ⟨by decide, c6_embedding_fallback [] [] none (by decide) (Or.inl rfl)⟩

/-- C7 (counterexample): on the short text "Hi" (trimmed length 2 < 20) the
language detector returns confidence 0, not 1 as the claim states. -/
theorem c7_counterexample :
    detect_language (fun _ => Except.error ()) "Hi" = ("en", 0, "English") ∧
      (0 : ℚ) ≠ 1 := by
  constructor
  · unfold detect_language
    rw [if_pos (Or.inr (by decide))]
  · norm_num

/-- C7 (amended): for text whose stripped length is under 20 characters the
detector returns the default triple with confidence 0.0 (for any detection
collaborator); the analyzer returns confidence 1.0 only in its separate
fallback used when the language-detection module itself is unavailable. -/
theorem c7_short_text_default :
    (∀ (collab : DetectCollab) (text : String),
        (pyStrip text.data).length < 20 →
          detect_language collab text = ("en", 0, "English")) ∧
      detect_resume_language_unavailable = ("en", 1, "English", false) := by
  constructor
  · intro collab text h
    unfold detect_language
    rw [if_pos (Or.inr h)]
  · rfl

theorem c7_short_text_default_witness :
    (pyStrip "Hi".data).length < 20 ∧
      detect_language (fun _ => Except.error ()) "Hi" = ("en", 0, "English") :=
  ⟨by decide, c7_short_text_default.1 (fun _ => Except.error ()) "Hi" (by decide)⟩

/-- C9: whenever the job description has at least one extracted skill, the
match score is at least 20: the skill score is `20 + match_ratio * 70 ≥ 20`
and every bonus is non-negative; the final clamp only caps at 100. -/
theorem c9_score_at_least_20 (r j : List Char) (emb : Option EmbModel)
    (hj : extract_skills j ≠ []) :
    20 ≤ calculate_semantic_similarity r j emb := by
  have hj' : (foundSkills j).length ≠ 0 := by
    intro h0
    exact hj (by unfold extract_skills; rw [List.length_eq_zero.mp h0]; rfl)
  unfold calculate_semantic_similarity
  apply clamp_of_le
  have h1 : skill_score r j emb = 20 + match_ratio r j * 70 := by
    unfold skill_score
    rw [if_pos hj']
  have h2 := match_ratio_nonneg r j
  have h3 := word_bonus_nonneg r j
  have h4 := ratioBonus_nonneg r j
  have h5 := skillCountBonus_nonneg r
  have h6 : 0 ≤ match_ratio r j * 70 := mul_nonneg h2 (by norm_num)
  rw [h1]
  linarith

theorem c9_score_at_least_20_witness :
    extract_skills "python".data ≠ [] ∧
      20 ≤ calculate_semantic_similarity [] "python".data none :=
  ⟨by decide, c9_score_at_least_20 [] "python".data none (by decide)⟩

/-- C10: there is a resume without any digit whose phone check passes and
earns the +25 phone credit: the pattern accepts any run of 7-15 characters
from digits/whitespace/hyphens/parentheses in the first 500 characters, so a
digit-free run of hyphens, spaces and parentheses satisfies it (here the
contact score is 25 phone + 25 name = 50). -/
theorem c10_phone_without_digits :
    phoneResume.all (fun c => !c.isDigit) = true ∧
      phoneFound phoneResume = true ∧ score_contact phoneResume = 50 := by
  refine ⟨by decide, by decide, ?_⟩
  have he : emailFound phoneResume = false := by decide
  have hp : phoneFound phoneResume = true := by decide
  have hl : linkedinFound phoneResume = false := by decide
  have hn : nameOk phoneResume = true := by decide
  unfold score_contact
  rw [he, hp, hl, hn]
  norm_num

/-- C8: the first-10 `skills_found` list and the first-8 `missing_keywords`
list of the analysis result are disjoint: `missing_keywords` re-title-cases
members of `jd_skills - resume_skills`, title-casing is idempotent on skill
labels, and every entry of `skills_found` is a resume skill. -/
theorem c8_found_missing_disjoint (r j : List Char) :
    (skillsFoundList r).all
      (fun x => !((missingKeywordsList r j).contains x)) = true := by
  rw [List.all_eq_true]
  intro x hx
  have hxr : x ∈ extract_skills r := List.take_subset _ _ hx
  suffices hmem : x ∉ missingKeywordsList r j by simpa using hmem
  intro hxm
  have hxm8 : x ∈ find_missing_keywords r j := List.take_subset _ _ hxm
  rcases List.mem_map.mp hxm8 with ⟨y, hy, hxy⟩
  rcases List.mem_filter.mp hy with ⟨hyj, hynotr⟩
  rcases List.mem_map.mp hyj with ⟨s, hs, hys⟩
  have hss : s ∈ skillsDict := (List.mem_filter.mp hs).1
  have hidem : pyTitleL (pyTitleL s) = pyTitleL s := by
    have h := List.all_eq_true.mp pyTitle_idem_on_dict s hss
    simpa using h
  have hxeqy : x = y := by
    rw [← hxy, ← hys, hidem]
  have hyr : y ∈ extract_skills r := hxeqy ▸ hxr
  have hc : (extract_skills r).contains y = true := List.elem_eq_true_of_mem hyr
  simp only [decide_eq_true_eq] at hynotr
  exact hynotr hc

/-- C3 (counterexample): appending an occurrence of the required skill
"python" directly to the resume "java" (removing nothing) merges the two
words into "javapython", destroys the word-boundary match of "java", and
drops the match score from 65 to 20. -/
theorem c3_counterexample :
    "java".data ++ "python".data = "javapython".data ∧
      "Python".data ∈ extract_skills c3jd ∧
      calculate_semantic_similarity "javapython".data c3jd none <
        calculate_semantic_similarity "java".data c3jd none := by
  refine ⟨by decide, by decide, ?_⟩
  have hf : (foundSkills c3jd).length = 2 := by decide
  have hm1 : (matchedSkills "java".data c3jd).length = 1 := by decide
  have hr1 : (foundSkills "java".data).length = 1 := by decide
  have hm2 : (matchedSkills "javapython".data c3jd).length = 0 := by decide
  have hr2 : (foundSkills "javapython".data).length = 0 := by decide
  have hw : (jdWordSet c3jd).length = 2 := by decide
  have ho1 : wordOverlapCount "java".data c3jd = 1 := by decide
  have ho2 : wordOverlapCount "javapython".data c3jd = 0 := by decide
  unfold calculate_semantic_similarity skill_score word_bonus ratioBonus
    skillCountBonus match_ratio
  rw [hf, hm1, hr1, hm2, hr2, hw, ho1, ho2]
  norm_num [min_def, max_def]

/-- C3 (amended): for a job description with at least one extracted skill,
extending the resume by a whitespace separator followed by any additional
text (in particular by further occurrences of the required skills) never
decreases the match score. -/
theorem c3_monotone_append (r s j : List Char) (emb : Option EmbModel)
    (hj : extract_skills j ≠ []) :
    calculate_semantic_similarity r j emb ≤
      calculate_semantic_similarity (r ++ ' ' :: s) j emb := by
  have hj' : (foundSkills j).length ≠ 0 := by
    intro h0
    exact hj (by unfold extract_skills; rw [List.length_eq_zero.mp h0]; rfl)
  unfold calculate_semantic_similarity
  apply clamp_mono
  have h1 := skill_score_mono r s j emb hj'
  have h2 := word_bonus_mono r s j
  have h3 := ratioBonus_mono r s j
  have h4 := skillCountBonus_mono r s
  linarith

theorem c3_monotone_append_witness :
    extract_skills c3jd ≠ [] ∧
      calculate_semantic_similarity "java".data c3jd none ≤
        calculate_semantic_similarity ("java".data ++ ' ' :: "python".data) c3jd none :=
  ⟨by decide, c3_monotone_append "java".data "python".data c3jd none (by decide)⟩

/-- Membership in `extract_skills` through the dictionary. -/
theorem mem_extract_skills_iff (x t : List Char) :
    x ∈ extract_skills t ↔
      ∃ s, s ∈ skillsDict ∧ skillMatches t s = true ∧ pyTitleL s = x := by
  unfold extract_skills foundSkills
  constructor
  · intro hx
    rcases List.mem_map.mp hx with ⟨s, hs, hsx⟩
    rcases List.mem_filter.mp hs with ⟨hsd, hsm⟩
    exact ⟨s, hsd, hsm, hsx⟩
  · rintro ⟨s, hsd, hsm, hsx⟩
    exact List.mem_map.mpr ⟨s, List.mem_filter.mpr ⟨hsd, hsm⟩, hsx⟩

set_option maxRecDepth 4000 in
/-- The only dictionary entry whose display label is "Java" is "java". -/
theorem dict_label_java :
    skillsDict.all
      (fun s => !(pyTitleL s == "Java".data) || (s == "java".data)) = true := by
  decide

set_option maxRecDepth 4000 in
/-- The only dictionary entry whose display label is "C++" is "c++". -/
theorem dict_label_cpp :
    skillsDict.all
      (fun s => !(pyTitleL s == "C++".data) || (s == "c++".data)) = true := by
  decide

/-- C2 (counterexample): on the text "c++ " — which contains "c++" followed
by a space — the extractor returns only "C" (the single-letter skill "c");
"C++" is not extracted, because the trailing `\b` of the compiled pattern
requires a word character right after the final "+". -/
theorem c2_counterexample :
    extract_skills "c++ ".data = ["C".data] ∧
      "C++".data ∉ extract_skills "c++ ".data := by
  constructor
  · decide
  · decide

/-- C2 (amended): extraction matches a dictionary term at exactly the
occurrences bounded by regex word boundaries in the lower-cased text.  For a
term made of word characters such as "java" this is whole-word occurrence —
a non-word (or absent) character on both sides — so "java" never matches
inside "javascript"; but for "c++", whose final character is not a word
character, the trailing boundary demands a word character immediately after
the "+", so "c++" before a space or the end of the text does not match. -/
theorem c2_word_boundary_matching :
    (∀ t : List Char,
        "Java".data ∈ extract_skills t ↔
          ∃ pre suf, lowerL t = pre ++ "java".data ++ suf ∧
            preW false pre = false ∧ headW suf = false) ∧
      (∀ t : List Char,
        "C++".data ∈ extract_skills t ↔
          ∃ pre suf, lowerL t = pre ++ "c++".data ++ suf ∧
            preW false pre = false ∧ headW suf = true) := by
  constructor
  · intro t
    rw [mem_extract_skills_iff]
    constructor
    · rintro ⟨s, hsd, hsm, hst⟩
      have hsj : s = "java".data := by
        have h := List.all_eq_true.mp dict_label_java s hsd
        simp only [Bool.or_eq_true, Bool.not_eq_true', beq_iff_eq, beq_eq_false_iff_ne] at h
        rcases h with h | h
        · exact absurd hst h
        · exact h
      subst hsj
      unfold skillMatches at hsm
      rcases (reSearchWord_iff "java".data (by decide) (lowerL t)).mp hsm with
        ⟨pre, suf, heq, hl, hr⟩
      refine ⟨pre, suf, heq, ?_, ?_⟩
      · rw [(by decide : headW "java".data = true)] at hl
        exact Bool.eq_false_iff.mpr hl
      · rw [(by decide : lastW "java".data = true)] at hr
        exact Bool.eq_false_iff.mpr (Ne.symm hr)
    · rintro ⟨pre, suf, heq, hpre, hsuf⟩
      refine ⟨"java".data, by decide, ?_, by decide⟩
      unfold skillMatches
      apply (reSearchWord_iff "java".data (by decide) (lowerL t)).mpr
      refine ⟨pre, suf, heq, ?_, ?_⟩
      · rw [hpre]
        decide
      · rw [hsuf]
        decide
  · intro t
    rw [mem_extract_skills_iff]
    constructor
    · rintro ⟨s, hsd, hsm, hst⟩
      have hsj : s = "c++".data := by
        have h := List.all_eq_true.mp dict_label_cpp s hsd
        simp only [Bool.or_eq_true, Bool.not_eq_true', beq_iff_eq, beq_eq_false_iff_ne] at h
        rcases h with h | h
        · exact absurd hst h
        · exact h
      subst hsj
      unfold skillMatches at hsm
      rcases (reSearchWord_iff "c++".data (by decide) (lowerL t)).mp hsm with
        ⟨pre, suf, heq, hl, hr⟩
      refine ⟨pre, suf, heq, ?_, ?_⟩
      · rw [(by decide : headW "c++".data = true)] at hl
        exact Bool.eq_false_iff.mpr hl
      · rw [(by decide : lastW "c++".data = false)] at hr
        exact Bool.ne_false_iff.mp (Ne.symm hr)
    · rintro ⟨pre, suf, heq, hpre, hsuf⟩
      refine ⟨"c++".data, by decide, ?_, by decide⟩
      unfold skillMatches
      apply (reSearchWord_iff "c++".data (by decide) (lowerL t)).mpr
      refine ⟨pre, suf, heq, ?_, ?_⟩
      · rw [hpre]
        decide
      · rw [hsuf]
        decide

/-- C1 (counterexample): on the Scenario A inputs the Match Scorer does not
compute `matchRatio = 1.0`: the job description yields 8 skills (including
"Api", "Rest Api", "Backend", "Backend Developer") of which the resume
matches only 4. -/
theorem c1_counterexample :
    ¬ (match_ratio scenarioAResume scenarioAJob = 1 ∧
        90 ≤ calculate_semantic_similarity scenarioAResume scenarioAJob none) := by
  have hf : (foundSkills scenarioAJob).length = 8 := by decide
  have hm : (matchedSkills scenarioAResume scenarioAJob).length = 4 := by decide
  rintro ⟨hratio, -⟩
  unfold match_ratio at hratio
  rw [hf, hm] at hratio
  norm_num at hratio

/-- C1 (amended): on the Scenario A inputs the Match Scorer computes
`matchRatio = 1/2` (4 of 8 job-description skills matched) and returns the
match score 466/7 ≈ 66.6, which is below 90. -/
theorem c1_scenarioA_actual :
    match_ratio scenarioAResume scenarioAJob = 1/2 ∧
      calculate_semantic_similarity scenarioAResume scenarioAJob none = 466/7 ∧
      (466 : ℚ)/7 < 90 := by
  have hf : (foundSkills scenarioAJob).length = 8 := by decide
  have hm : (matchedSkills scenarioAResume scenarioAJob).length = 4 := by decide
  have hr : (foundSkills scenarioAResume).length = 9 := by decide
  have hw : (jdWordSet scenarioAJob).length = 7 := by decide
  have ho : wordOverlapCount scenarioAResume scenarioAJob = 3 := by decide
  refine ⟨?_, ?_, by norm_num⟩
  · unfold match_ratio
    rw [hf, hm]
    norm_num
  · unfold calculate_semantic_similarity skill_score word_bonus ratioBonus
      skillCountBonus match_ratio
    rw [hf, hm, hr, hw, ho]
    norm_num [min_def, max_def]

